import Mathlib

/-!
Shallow embedding of the scene-store of `src/store/sceneStore.ts` (a zustand
store driving an in-browser 3D editor), together with proofs about its
operations. JavaScript numbers are modelled as exact rationals, `null` /
`undefined` as `Option`, arrays as lists, and `crypto.randomUUID()` as an
explicit fresh-id argument. Every store action `set ((state) => partial)`
merges the returned partial record into the state; the embedding makes the
merge explicit by returning the full record with the untouched fields copied
from the input state. Mesh geometry is reached through `selectedObject`, as in
every geometry-editing action of the source; normal recomputation
(`computeVertexNormals`) affects only normals, which no operation reads back,
so normals are not part of the modelled state.
-/

namespace SceneStore

/-- Model of `THREE.Vector3`, with exact rational coordinates in place of doubles. -/
structure Vec3 where
  x : ℚ
  y : ℚ
  z : ℚ
deriving DecidableEq, Repr

/-- Component-wise addition (`Vector3.add`). -/
def Vec3.add (a b : Vec3) : Vec3 := ⟨a.x + b.x, a.y + b.y, a.z + b.z⟩

/-- Component-wise subtraction (`Vector3.sub`, used via `clone().sub(...)`). -/
def Vec3.sub (a b : Vec3) : Vec3 := ⟨a.x - b.x, a.y - b.y, a.z - b.z⟩

/-- Squared Euclidean distance between two points. -/
def Vec3.distSq (a b : Vec3) : ℚ :=
  (a.x - b.x) ^ 2 + (a.y - b.y) ^ 2 + (a.z - b.z) ^ 2

/-- The test `a.distanceTo(b) < 0.0001`, decided exactly on the squared distance. -/
def distLt (a b : Vec3) : Bool := decide (Vec3.distSq a b < (1 / 10000) ^ 2)

/-- Constructor parameters of a `THREE.SphereGeometry`; three.js stores the raw
constructor arguments in `geometry.parameters`, which is what
`updateSphereVertices` reads back. -/
structure SphereParams where
  radius : ℚ
  widthSegments : ℚ
  heightSegments : ℚ
  phiStart : ℚ
  phiLength : ℚ
  thetaStart : ℚ
  thetaLength : ℚ
deriving DecidableEq, Repr

/-- The geometry kinds the store discriminates with `instanceof` checks.
Cylinder/cone constructor parameters are omitted: no embedded operation reads
them (`updateCylinderVertices` is outside the claims). -/
inductive GeomKind where
  | sphere (params : SphereParams)
  | cylinder
  | cone
  | box
  | other
deriving DecidableEq, Repr

/-- A `THREE.BufferGeometry`: its kind tag plus the vertex-position buffer
(`geometry.attributes.position`, one `Vec3` per vertex). -/
structure Geometry where
  kind : GeomKind
  positions : List Vec3
deriving DecidableEq, Repr

/-- A `THREE.Object3D`: either a mesh carrying a geometry, or any other
non-mesh object (failing the `instanceof THREE.Mesh` checks). -/
inductive Object3D where
  | mesh (geometry : Geometry)
  | plain
deriving DecidableEq, Repr

/-- One entry of the `objects` array of the store. -/
structure SceneObjectEntry where
  id : String
  object : Object3D
  name : String
  visible : Bool
  groupId : Option String
deriving DecidableEq, Repr

/-- A `Group` record of the store (sceneStore.ts lines 6-12). -/
structure Group where
  id : String
  name : String
  expanded : Bool
  visible : Bool
  objectIds : List String
deriving DecidableEq, Repr

/-- The `EditMode` values `vertex` and `edge`; the TypeScript `null` becomes
`Option.none` at use sites. -/
inductive EditMode where
  | vertex
  | edge
deriving DecidableEq, Repr

/-- Transform modes; `null` becomes `Option.none` at use sites. -/
inductive TransformMode where
  | translate
  | rotate
  | scale
deriving DecidableEq, Repr

/-- The three index-selection sets. -/
structure SelectedElements where
  vertices : List Nat
  edges : List Nat
  faces : List Nat
deriving DecidableEq, Repr

/-- The vertex drag session (`draggedVertex`). -/
structure DraggedVertex where
  indices : List Nat
  position : Vec3
  initialPosition : Vec3
deriving DecidableEq, Repr

/-- The edge drag session (`draggedEdge`). The source builds
`connectedVertices` as a JS `Set<number>`, modelled as its insertion-ordered
duplicate-free list; `indices` holds the two-element arrays `[v1, v2]` as
pairs. -/
structure DraggedEdge where
  indices : List (Nat × Nat)
  positions : List Vec3
  initialPositions : List Vec3
  connectedVertices : List Nat
  midpoint : Vec3
deriving DecidableEq, Repr

/-- The full store state (sceneStore.ts lines 14-43). -/
structure SceneState where
  objects : List SceneObjectEntry
  groups : List Group
  selectedObject : Option Object3D
  transformMode : Option TransformMode
  editMode : Option EditMode
  selectedElements : SelectedElements
  draggedVertex : Option DraggedVertex
  draggedEdge : Option DraggedEdge
  isDraggingEdge : Bool
deriving DecidableEq, Repr

/-- The initial store state (lines 76-88). -/
def initialState : SceneState where
  objects := []
  groups := []
  selectedObject := none
  transformMode := none
  editMode := none
  selectedElements := ⟨[], [], []⟩
  draggedVertex := none
  draggedEdge := none
  isDraggingEdge := false

/-- Action `addObject` (lines 90-93); `crypto.randomUUID()` is modelled by the
explicit `newId` argument, a freshly generated unique id. -/
def addObject (newId : String) (object : Object3D) (name : String)
    (s : SceneState) : SceneState :=
  { s with objects := s.objects ++
      [{ id := newId, object := object, name := name, visible := true, groupId := none }] }

/-- Action `removeObject` (lines 95-110): strips the id from every group member list,
drops the object, and clears the selection when the removed entry held the
selected object (reference equality of the JS mesh handle is modelled as
structural equality; no claim distinguishes the two). -/
def removeObject (id : String) (s : SceneState) : SceneState :=
  let updatedGroups := s.groups.map fun group =>
    { group with objectIds := group.objectIds.filter fun objId => objId ≠ id }
  let newSelected : Option Object3D :=
    match s.objects.find? fun obj => obj.id = id with
    | some obj => if some obj.object = s.selectedObject then none else s.selectedObject
    | none => s.selectedObject
  { s with
    objects := s.objects.filter fun obj => obj.id ≠ id
    groups := updatedGroups
    selectedObject := newSelected }

/-- The `instanceof SphereGeometry || CylinderGeometry || ConeGeometry` test
used by `setSelectedObject` and `setEditMode`. -/
def isCurved : GeomKind → Bool
  | .sphere _ => true
  | .cylinder => true
  | .cone => true
  | _ => false

/-- Action `setSelectedObject` (lines 112-130): auto-forces vertex mode for curved
primitives, keeps the edit mode otherwise, and clears the transform mode. The
returned partial does not mention `selectedElements`, so the merge leaves the
three index sets untouched. -/
def setSelectedObject (object : Option Object3D) (s : SceneState) : SceneState :=
  let newEditMode : Option EditMode :=
    match object with
    | some (.mesh g) => if isCurved g.kind then some .vertex else s.editMode
    | _ => s.editMode
  { s with selectedObject := object, editMode := newEditMode, transformMode := none }

/-- Action `setEditMode` (lines 134-146): entering edge mode is rejected outright when
the selected object is a mesh with curved-primitive geometry. -/
def setEditMode (mode : Option EditMode) (s : SceneState) : SceneState :=
  match mode, s.selectedObject with
  | some .edge, some (.mesh g) =>
      if isCurved g.kind then s else { s with editMode := mode }
  | _, _ => { s with editMode := mode }

/-- Read of the position buffer at an index. In-range reads return the stored
vertex; the default is only reached out of range (where the JS getters return
`undefined`, and any arithmetic or write on the result is inert). -/
def vecAt (ps : List Vec3) (i : Nat) : Vec3 := ps.getD i ⟨0, 0, 0⟩

/-- The coincident-vertex scan inlined in `startVertexDrag` (lines 210-226):
every index whose position lies strictly within 1e-4 of the position at
`index`, in ascending order. An out-of-range `index` reads a NaN position in
JS, which no vertex is within 1e-4 of, giving the empty list. -/
def overlappingIndices (ps : List Vec3) (index : Nat) : List Nat :=
  match ps[index]? with
  | none => []
  | some selectedPos =>
      (List.range ps.length).filter fun i => distLt (vecAt ps i) selectedPos

/-- Action `startVertexDrag` (lines 204-239): fails silently without a selected mesh;
otherwise records the coincident index set as the session and as the vertex
selection, seeding both `position` and `initialPosition`. -/
def startVertexDrag (index : Nat) (position : Vec3) (s : SceneState) : SceneState :=
  match s.selectedObject with
  | some (.mesh g) =>
      let overlapping := overlappingIndices g.positions index
      { s with
        draggedVertex := some
          { indices := overlapping, position := position, initialPosition := position }
        selectedElements := { s.selectedElements with vertices := overlapping } }
  | _ => s

/-- Action `updateVertexDrag` (lines 241-267): writes the new position into every
session index (out-of-range `setXYZ` writes are inert, as `List.set` is) and
updates the live session position. -/
def updateVertexDrag (position : Vec3) (s : SceneState) : SceneState :=
  match s.draggedVertex, s.selectedObject with
  | some dv, some (.mesh g) =>
      let newPositions := dv.indices.foldl (fun ps index => ps.set index position) g.positions
      { s with
        selectedObject := some (.mesh { g with positions := newPositions })
        draggedVertex := some { dv with position := position } }
  | _, _ => s

/-- Action `endVertexDrag` (line 269). -/
def endVertexDrag (s : SceneState) : SceneState := { s with draggedVertex := none }

/-- Helper `findOverlappingVertices` inside `startEdgeDrag` (lines 281-303): the
target index first, then every other index strictly within 1e-4 of it. -/
def findOverlappingVertices (ps : List Vec3) (targetIndex : Nat) : List Nat :=
  match ps[targetIndex]? with
  | none => [targetIndex]
  | some targetPos =>
      targetIndex ::
        (List.range ps.length).filter fun i =>
          decide (i ≠ targetIndex) && distLt (vecAt ps i) targetPos

/-- JS `Set.add`: append the element unless already present. -/
def setAdd (l : List Nat) (v : Nat) : List Nat := if v ∈ l then l else l ++ [v]

/-- Action `startEdgeDrag` (lines 271-333): resolves the coincident set of each of the
two endpoint indices, unions them into `connectedVertices`, enumerates the
cross-product as the logical edge list, and records the caller-supplied
positions (cloned: a value copy) and midpoint. Also mirrors
`connectedVertices` into the edge selection set. -/
def startEdgeDrag (vertexIndices : List Nat) (positions : List Vec3)
    (midpoint : Vec3) (s : SceneState) : SceneState :=
  match s.selectedObject with
  | some (.mesh g) =>
      let vertex1Overlapping := findOverlappingVertices g.positions (vertexIndices.getD 0 0)
      let vertex2Overlapping := findOverlappingVertices g.positions (vertexIndices.getD 1 0)
      let connectedVertices := (vertex1Overlapping ++ vertex2Overlapping).foldl setAdd []
      let edges := vertex1Overlapping.flatMap fun v1 =>
        vertex2Overlapping.map fun v2 => (v1, v2)
      { s with
        draggedEdge := some
          { indices := edges, positions := positions, initialPositions := positions
            connectedVertices := connectedVertices, midpoint := midpoint }
        selectedElements := { s.selectedElements with edges := connectedVertices } }
  | _ => s

/-- Action `updateEdgeDrag` (lines 335-363): adds `position - midpoint` to the current
buffer position of every connected vertex, then moves the session midpoint to
`position`. -/
def updateEdgeDrag (position : Vec3) (s : SceneState) : SceneState :=
  match s.draggedEdge, s.selectedObject with
  | some de, some (.mesh g) =>
      let offset := position.sub de.midpoint
      let newPositions := de.connectedVertices.foldl
        (fun ps vertexIndex => ps.set vertexIndex ((vecAt ps vertexIndex).add offset))
        g.positions
      { s with
        selectedObject := some (.mesh { g with positions := newPositions })
        draggedEdge := some { de with midpoint := position } }
  | _, _ => s

/-- Action `endEdgeDrag` (line 365). -/
def endEdgeDrag (s : SceneState) : SceneState := { s with draggedEdge := none }

/-- Modelled from the spec: the tessellated vertex buffer of a
`THREE.SphereGeometry` is built inside the external three.js library, not in
this repository. No claim inspects its numeric contents, so the buffer is left
abstract (empty). -/
def threeSphereBufferPositions (_params : SphereParams) : List Vec3 := []

/-- Constructor `new THREE.SphereGeometry(...)`: stores the raw constructor arguments as
the parameters (as three.js does) together with the externally built buffer. -/
def sphereGeometry (params : SphereParams) : Geometry :=
  { kind := .sphere params, positions := threeSphereBufferPositions params }

/-- Action `updateSphereVertices` (lines 401-430): a no-op unless a mesh with sphere
geometry is selected; otherwise rebuilds the sphere keeping radius and
phi/theta parameters, with `vertexCount` width segments and `vertexCount / 2`
(exact JS division, not floored) height segments, and clears all three
selection sets. -/
def updateSphereVertices (vertexCount : ℚ) (s : SceneState) : SceneState :=
  match s.selectedObject with
  | some (.mesh g) =>
      match g.kind with
      | .sphere oldParams =>
          let newGeometry := sphereGeometry
            { radius := oldParams.radius
              widthSegments := vertexCount
              heightSegments := vertexCount / 2
              phiStart := oldParams.phiStart
              phiLength := oldParams.phiLength
              thetaStart := oldParams.thetaStart
              thetaLength := oldParams.thetaLength }
          { s with
            selectedObject := some (.mesh newGeometry)
            selectedElements := { vertices := [], edges := [], faces := [] } }
      | _ => s
  | _ => s

/-- Action `createGroup` (lines 433-454); `crypto.randomUUID()` is modelled by the
explicit `newId` argument. The given ids are stored verbatim
(`[...objectIds]` is a value copy) and every object whose id occurs among them
gets the new group id; no other bookkeeping happens. -/
def createGroup (newId : String) (name : String) (objectIds : List String)
    (s : SceneState) : SceneState :=
  let newGroup : Group :=
    { id := newId, name := name, expanded := true, visible := true, objectIds := objectIds }
  let updatedObjects := s.objects.map fun obj =>
    if objectIds.contains obj.id then { obj with groupId := some newGroup.id } else obj
  { s with groups := s.groups ++ [newGroup], objects := updatedObjects }

/-- Action `removeGroup` (lines 456-469). -/
def removeGroup (groupId : String) (s : SceneState) : SceneState :=
  let updatedObjects := s.objects.map fun obj =>
    if obj.groupId = some groupId then { obj with groupId := none } else obj
  { s with
    groups := s.groups.filter fun group => group.id ≠ groupId
    objects := updatedObjects }

/-- Action `addObjectToGroup` (lines 471-487). -/
def addObjectToGroup (objectId : String) (groupId : String) (s : SceneState) : SceneState :=
  let updatedObjects := s.objects.map fun obj =>
    if obj.id = objectId then { obj with groupId := some groupId } else obj
  let updatedGroups := s.groups.map fun group =>
    if group.id = groupId
    then { group with objectIds := group.objectIds ++ [objectId] }
    else group
  { s with objects := updatedObjects, groups := updatedGroups }

/-- Action `removeObjectFromGroup` (lines 489-508): a no-op when the id is unknown or
the found object has no group. -/
def removeObjectFromGroup (objectId : String) (s : SceneState) : SceneState :=
  match s.objects.find? fun o => o.id = objectId with
  | none => s
  | some obj =>
    match obj.groupId with
    | none => s
    | some gid =>
      let updatedObjects := s.objects.map fun o =>
        if o.id = objectId then { o with groupId := none } else o
      let updatedGroups := s.groups.map fun group =>
        if group.id = gid
        then { group with objectIds := group.objectIds.filter fun id => id ≠ objectId }
        else group
      { s with objects := updatedObjects, groups := updatedGroups }

/-- Action `moveObjectsToGroup` (lines 556-584): strips the moved ids from every
member list, appends them to the target member list when a target is given,
and rewrites the group id of every moved object. (The JS falsy test
`groupId ? ... : ...` is modelled by the `Option` match; group ids are
non-empty UUIDs, so the empty-string corner of JS falsiness never arises.) -/
def moveObjectsToGroup (objectIds : List String) (groupId : Option String)
    (s : SceneState) : SceneState :=
  let updatedGroups := s.groups.map fun group =>
    { group with objectIds := group.objectIds.filter fun id => !objectIds.contains id }
  let finalGroups :=
    match groupId with
    | some gid =>
        updatedGroups.map fun group =>
          if group.id = gid
          then { group with objectIds := group.objectIds ++ objectIds }
          else group
    | none => updatedGroups
  let updatedObjects := s.objects.map fun obj =>
    if objectIds.contains obj.id then { obj with groupId := groupId } else obj
  { s with groups := finalGroups, objects := updatedObjects }

/-- The position buffer of the selected mesh (empty when nothing mesh-like is
selected); how every drag operation reaches the buffer it edits. -/
def selPositions (s : SceneState) : List Vec3 :=
  match s.selectedObject with
  | some (.mesh g) => g.positions
  | _ => []

/-- Whether the selected object passes the `instanceof THREE.Mesh` guard. -/
def isMeshSelected : Option Object3D → Bool
  | some (.mesh _) => true
  | _ => false

/-- Whether a mesh with sphere geometry is selected (the guard of
`updateSphereVertices`). -/
def isSphereSelected (s : SceneState) : Bool :=
  match s.selectedObject with
  | some (.mesh g) =>
      match g.kind with
      | .sphere _ => true
      | _ => false
  | _ => false

/-- The sphere parameters of the selected geometry, when a sphere is selected. -/
def sphereParamsOf (s : SceneState) : Option SphereParams :=
  match s.selectedObject with
  | some (.mesh g) =>
      match g.kind with
      | .sphere p => some p
      | _ => none
  | _ => none

/-- Group referential integrity (spec section 3): every id in a member list of
a group names an existing object whose `groupId` is that group id, and every
object whose `groupId` names an existing group is listed by that group. -/
def refIntegrity (s : SceneState) : Prop :=
  (∀ g ∈ s.groups, ∀ oid ∈ g.objectIds,
      ∃ o ∈ s.objects, o.id = oid ∧ o.groupId = some g.id) ∧
  (∀ o ∈ s.objects, ∀ g ∈ s.groups, o.groupId = some g.id → o.id ∈ g.objectIds)

instance (s : SceneState) : Decidable (refIntegrity s) := by
  unfold refIntegrity; exact inferInstance

/-- Distinctness of the object ids, as guaranteed by `crypto.randomUUID()`. -/
def objectIdsNodup (s : SceneState) : Prop := (s.objects.map (·.id)).Nodup

instance (s : SceneState) : Decidable (objectIdsNodup s) := by
  unfold objectIdsNodup; exact inferInstance

/-! Concrete states used to instantiate and to refute claims. -/

/-- A state with a nonempty vertex-selection set (and nothing selected). -/
def cState : SceneState := { initialState with selectedElements := ⟨[3], [], []⟩ }

/-- A two-vertex box geometry. -/
def gBox : Geometry := { kind := .box, positions := [⟨0, 0, 0⟩, ⟨1, 0, 0⟩] }

/-- A state reached from `initialState` by adding a mesh, selecting it,
starting an edge drag, and then starting a vertex drag without ending the
edge drag. -/
def cexChain : SceneState :=
  startVertexDrag 0 ⟨0, 0, 0⟩
    (startEdgeDrag [0, 1] [⟨0, 0, 0⟩, ⟨1, 0, 0⟩] ⟨1 / 2, 0, 0⟩
      (setSelectedObject (some (.mesh gBox))
        (addObject "id0" (.mesh gBox) "A" initialState)))

/-- A state with a selected sphere mesh. -/
def sphState : SceneState :=
  { initialState with
    selectedObject := some (.mesh (sphereGeometry ⟨1, 16, 8, 0, 44 / 7, 0, 22 / 7⟩)) }

/-- A three-vertex geometry whose first two vertices coincide. -/
def gW : Geometry := { kind := .box, positions := [⟨0, 0, 0⟩, ⟨0, 0, 0⟩, ⟨5, 0, 0⟩] }

/-- A state with `gW` selected. -/
def wDragState : SceneState := { initialState with selectedObject := some (.mesh gW) }

/-- An edge drag session over the coincident vertices 0 and 1 of `gW` with
midpoint at the origin. -/
def wSession : DraggedEdge :=
  { indices := [(0, 1)], positions := [⟨0, 0, 0⟩, ⟨0, 0, 0⟩]
    initialPositions := [⟨0, 0, 0⟩, ⟨0, 0, 0⟩]
    connectedVertices := [0, 1], midpoint := ⟨0, 0, 0⟩ }

/-- A state with `gW` selected and `wSession` active. -/
def wEdgeState : SceneState :=
  { initialState with selectedObject := some (.mesh gW), draggedEdge := some wSession }

/-- A two-entry position buffer with both vertices at the origin. -/
def wPs : List Vec3 := [⟨0, 0, 0⟩, ⟨0, 0, 0⟩]

/-- A state with a selected cone mesh. -/
def wCone : SceneState :=
  { initialState with selectedObject := some (.mesh { kind := .cone, positions := [] }) }

/-- A registry state satisfying referential integrity: object `a` ungrouped,
object `b` in group `g1`. -/
def wState : SceneState :=
  { initialState with
    objects :=
      [{ id := "a", object := .plain, name := "A", visible := true, groupId := none },
       { id := "b", object := .plain, name := "B", visible := true, groupId := some "g1" }]
    groups := [{ id := "g1", name := "G1", expanded := true, visible := true, objectIds := ["b"] }] }

/-- A registry state satisfying referential integrity whose only object
already belongs to group `g1`. -/
def cgState : SceneState :=
  { initialState with
    objects := [{ id := "a", object := .plain, name := "A", visible := true, groupId := some "g1" }]
    groups := [{ id := "g1", name := "G1", expanded := true, visible := true, objectIds := ["a"] }] }

/-! Helper lemmas. -/

/-- The 1e-4 proximity test is symmetric. -/
theorem distLt_symm (a b : Vec3) : distLt a b = distLt b a := by
  unfold distLt Vec3.distSq; ring_nf

/-- Every point is within 1e-4 of itself. -/
theorem distLt_self (a : Vec3) : distLt a a = true := by
  simp [distLt, Vec3.distSq]

/-- In range, `vecAt` is the list element. -/
theorem vecAt_eq {ps : List Vec3} {i : Nat} (hi : i < ps.length) : vecAt ps i = ps[i] :=
  List.getD_eq_getElem ps _ hi

/-- Membership in the vertex-drag coincidence scan. -/
theorem mem_overlappingIndices {ps : List Vec3} {i : Nat} (hi : i < ps.length) (j : Nat) :
    j ∈ overlappingIndices ps i ↔ j < ps.length ∧ distLt (vecAt ps j) (vecAt ps i) = true := by
  unfold overlappingIndices
  rw [List.getElem?_eq_getElem hi]
  simp only [List.mem_filter, List.mem_range, vecAt_eq hi]

/-- Membership in the edge-drag coincidence scan. -/
theorem mem_findOverlappingVertices {ps : List Vec3} {t : Nat} (ht : t < ps.length) (j : Nat) :
    j ∈ findOverlappingVertices ps t ↔
      j = t ∨ (j < ps.length ∧ distLt (vecAt ps j) (vecAt ps t) = true) := by
  unfold findOverlappingVertices
  rw [List.getElem?_eq_getElem ht]
  simp only [List.mem_cons, List.mem_filter, List.mem_range, Bool.and_eq_true,
    decide_eq_true_eq, vecAt_eq ht]
  constructor
  · rintro (h | ⟨h1, _, h2⟩)
    · exact Or.inl h
    · exact Or.inr ⟨h1, h2⟩
  · rintro (h | ⟨h1, h2⟩)
    · exact Or.inl h
    · by_cases hjt : j = t
      · exact Or.inl hjt
      · exact Or.inr ⟨h1, hjt, h2⟩

/-! Claim theorems. -/

/-- Claim C8: the coincidence scan with threshold 1e-4 performed at drag start
is reflexive and symmetric, both for the scan inlined in `startVertexDrag` and
for `findOverlappingVertices` used by `startEdgeDrag`: every valid index
belongs to its own resolved set, and if j belongs to the set resolved for i
then i belongs to the set resolved for j. -/
theorem coincidence_refl_symm (ps : List Vec3) (i j : Nat)
    (hi : i < ps.length) (hj : j < ps.length) :
    (i ∈ overlappingIndices ps i ∧
       (j ∈ overlappingIndices ps i → i ∈ overlappingIndices ps j)) ∧
    (i ∈ findOverlappingVertices ps i ∧
       (j ∈ findOverlappingVertices ps i → i ∈ findOverlappingVertices ps j)) := by
  refine ⟨⟨?_, ?_⟩, ?_, ?_⟩
  · exact (mem_overlappingIndices hi i).mpr ⟨hi, distLt_self _⟩
  · intro hmem
    obtain ⟨_, hd⟩ := (mem_overlappingIndices hi j).mp hmem
    exact (mem_overlappingIndices hj i).mpr ⟨hi, by rwa [distLt_symm]⟩
  · exact (mem_findOverlappingVertices hi i).mpr (Or.inl rfl)
  · intro hmem
    rcases (mem_findOverlappingVertices hi j).mp hmem with h | ⟨_, hd⟩
    · rw [h]
      exact (mem_findOverlappingVertices hi i).mpr (Or.inl rfl)
    · exact (mem_findOverlappingVertices hj i).mpr (Or.inr ⟨hi, by rwa [distLt_symm]⟩)

/-- Witness for C8 on a concrete two-vertex buffer. -/
theorem coincidence_refl_symm_witness :
    (0 < wPs.length ∧ 1 < wPs.length) ∧
    ((0 ∈ overlappingIndices wPs 0 ∧
        (1 ∈ overlappingIndices wPs 0 → 0 ∈ overlappingIndices wPs 1)) ∧
     (0 ∈ findOverlappingVertices wPs 0 ∧
        (1 ∈ findOverlappingVertices wPs 0 → 0 ∈ findOverlappingVertices wPs 1))) :=
  ⟨⟨by decide, by decide⟩, coincidence_refl_symm wPs 0 1 (by decide) (by decide)⟩

/-- Claim C6: with a selected mesh whose geometry is a sphere, cylinder or
cone, `setEditMode edge` leaves the state entirely unchanged. -/
theorem setEditMode_edge_guard (s : SceneState) (g : Geometry)
    (hsel : s.selectedObject = some (.mesh g)) (hcurved : isCurved g.kind = true) :
    setEditMode (some .edge) s = s := by
  unfold setEditMode
  rw [hsel]
  simp [hcurved]

/-- Witness for C6 on a concrete cone-selected state. -/
theorem setEditMode_edge_guard_witness :
    wCone.selectedObject = some (.mesh { kind := .cone, positions := [] }) ∧
    isCurved GeomKind.cone = true ∧
    setEditMode (some .edge) wCone = wCone :=
  ⟨rfl, rfl, setEditMode_edge_guard wCone { kind := .cone, positions := [] } rfl rfl⟩

/-- Claim C9: permissive no-ops — `startVertexDrag` without a selected mesh,
`updateVertexDrag` without an active vertex session, and `updateEdgeDrag`
without an active edge session all leave the state unchanged. -/
theorem drag_noops (s : SceneState) (i : Nat) (p q r : Vec3) :
    (isMeshSelected s.selectedObject = false → startVertexDrag i p s = s) ∧
    (s.draggedVertex = none → updateVertexDrag q s = s) ∧
    (s.draggedEdge = none → updateEdgeDrag r s = s) := by
  refine ⟨?_, ?_, ?_⟩
  · intro h
    unfold startVertexDrag
    split
    · next g heq => rw [heq] at h; simp [isMeshSelected] at h
    · rfl
  · intro h
    unfold updateVertexDrag
    split
    · next dv g heq1 heq2 => rw [h] at heq1; exact Option.noConfusion heq1
    · rfl
  · intro h
    unfold updateEdgeDrag
    split
    · next de g heq1 heq2 => rw [h] at heq1; exact Option.noConfusion heq1
    · rfl

/-- Witness for C9 on the initial state. -/
theorem drag_noops_witness :
    (isMeshSelected initialState.selectedObject = false ∧
      startVertexDrag 0 ⟨1, 1, 1⟩ initialState = initialState) ∧
    (initialState.draggedVertex = none ∧
      updateVertexDrag ⟨1, 1, 1⟩ initialState = initialState) ∧
    (initialState.draggedEdge = none ∧
      updateEdgeDrag ⟨1, 1, 1⟩ initialState = initialState) :=
  ⟨⟨rfl, (drag_noops initialState 0 ⟨1, 1, 1⟩ ⟨1, 1, 1⟩ ⟨1, 1, 1⟩).1 rfl⟩,
   ⟨rfl, (drag_noops initialState 0 ⟨1, 1, 1⟩ ⟨1, 1, 1⟩ ⟨1, 1, 1⟩).2.1 rfl⟩,
   ⟨rfl, (drag_noops initialState 0 ⟨1, 1, 1⟩ ⟨1, 1, 1⟩ ⟨1, 1, 1⟩).2.2 rfl⟩⟩

/-- Counterexample to C2 as stated: `setSelectedObject` and a mode-changing
`setEditMode` leave a nonempty vertex-selection set in place instead of
clearing it. -/
theorem selection_sets_not_cleared :
    (setSelectedObject none cState).selectedElements.vertices ≠ [] ∧
    (setEditMode (some .edge) cState).editMode ≠ cState.editMode ∧
    (setEditMode (some .edge) cState).selectedElements.vertices ≠ [] := by
  decide

/-- Claim C2 as amended: `setSelectedObject` and `setEditMode` leave all three
index-selection sets exactly as they were (the returned partial state never
mentions `selectedElements`, so the store merge keeps them). -/
theorem selection_sets_unchanged (s : SceneState) (obj : Option Object3D)
    (m : Option EditMode) :
    (setSelectedObject obj s).selectedElements = s.selectedElements ∧
    (setEditMode m s).selectedElements = s.selectedElements := by
  constructor
  · rfl
  · unfold setEditMode
    split
    · split <;> rfl
    · rfl

/-- Counterexample to C5 as stated: after an edge drag begins, beginning a
vertex drag does not clear the edge session, so a reachable state holds both
a vertex and an edge drag session at once. -/
theorem both_drag_sessions_active :
    cexChain.draggedVertex ≠ none ∧ cexChain.draggedEdge ≠ none := by
  decide

/-- Claim C5 as amended: starting a drag of one kind never clears the session
of the other kind — `startVertexDrag` leaves `draggedEdge` untouched and
`startEdgeDrag` leaves `draggedVertex` untouched — so, contrary to the
original claim, the two sessions can be active simultaneously. -/
theorem drag_start_preserves_other_session (s : SceneState) (i : Nat) (p m : Vec3)
    (vi : List Nat) (ps : List Vec3) :
    (startVertexDrag i p s).draggedEdge = s.draggedEdge ∧
    (startEdgeDrag vi ps m s).draggedVertex = s.draggedVertex := by
  constructor
  · unfold startVertexDrag
    split <;> rfl
  · unfold startEdgeDrag
    split <;> rfl


theorem foldl_set_getElem? (q : Vec3) (ws : List Nat) (ps : List Vec3) (j : Nat) :
    (ws.foldl (fun acc i => acc.set i q) ps)[j]? =
      if j ∈ ws ∧ j < ps.length then some q else ps[j]? := by
  induction ws generalizing ps with
  | nil => simp
  | cons w ws ih =>
    simp only [List.foldl_cons]
    rw [ih, List.length_set]
    by_cases hjm : j ∈ ws
    · by_cases hjl : j < ps.length
      · simp [hjm, hjl]
      · have h1 : (ps.set w q)[j]? = none := by
          rw [List.getElem?_set]
          split
          · simp; omega
          · exact List.getElem?_eq_none (by omega)
        have h2 : ps[j]? = none := List.getElem?_eq_none (by omega)
        simp [hjm, hjl, h1, h2]
    · rw [List.getElem?_set]
      by_cases hjw : w = j
      · subst hjw
        by_cases hjl : w < ps.length <;> simp [hjm, hjl, List.getElem?_eq_none, le_of_not_lt]
      · have hjw2 : j ≠ w := fun h => hjw h.symm
        simp [hjm, hjw, hjw2]

theorem foldl_add_getElem? (off : Vec3) (cv : List Nat) :
    ∀ (ps : List Vec3) (j : Nat), cv.Nodup → (∀ v ∈ cv, v < ps.length) →
      (cv.foldl (fun acc v => acc.set v ((vecAt acc v).add off)) ps)[j]? =
        if j ∈ cv then (ps[j]?).map (fun x => x.add off) else ps[j]? := by
  induction cv with
  | nil =>
    intro ps j _ _
    simp
  | cons v cv ih =>
    intro ps j hnd hlt
    simp only [List.foldl_cons]
    have hv : v < ps.length := hlt v (by simp)
    have hnd2 := List.nodup_cons.mp hnd
    rw [ih (ps.set v ((vecAt ps v).add off)) j hnd2.2
      (fun u hu => by rw [List.length_set]; exact hlt u (by simp [hu]))]
    by_cases hjm : j ∈ cv
    · have hjv : j ≠ v := fun h => hnd2.1 (h ▸ hjm)
      rw [List.getElem?_set_ne fun h => hjv h.symm]
      simp [hjm]
    · by_cases hjv : j = v
      · subst hjv
        rw [List.getElem?_set_eq_of_lt _ hv, vecAt_eq hv, List.getElem?_eq_getElem hv]
        simp [hjm]
      · rw [List.getElem?_set_ne fun h => hjv h.symm]
        simp [hjm, hjv]

theorem vertexDrag_moves_coincident (s : SceneState) (g : Geometry) (i j : Nat)
    (p q : Vec3) (hsel : s.selectedObject = some (.mesh g))
    (hi : i < g.positions.length) (hj : j < g.positions.length) :
    (distLt (vecAt g.positions j) (vecAt g.positions i) = true →
       (selPositions (updateVertexDrag q (startVertexDrag i p s)))[j]? = some q) ∧
    (distLt (vecAt g.positions j) (vecAt g.positions i) = false →
       (selPositions (updateVertexDrag q (startVertexDrag i p s)))[j]? = g.positions[j]?) := by
  have h1 : selPositions (updateVertexDrag q (startVertexDrag i p s)) =
      (overlappingIndices g.positions i).foldl (fun ps idx => ps.set idx q) g.positions := by
    unfold startVertexDrag updateVertexDrag selPositions
    rw [hsel]
  constructor
  · intro hd
    have hmem : j ∈ overlappingIndices g.positions i :=
      (mem_overlappingIndices hi j).mpr ⟨hj, hd⟩
    rw [h1, foldl_set_getElem?]
    simp [hmem, hj]
  · intro hd
    have hmem : j ∉ overlappingIndices g.positions i := by
      intro hmem
      have h2 := ((mem_overlappingIndices hi j).mp hmem).2
      rw [hd] at h2
      exact Bool.noConfusion h2
    rw [h1, foldl_set_getElem?]
    simp [hmem]

theorem vertexDrag_moves_coincident_witness :
    wDragState.selectedObject = some (.mesh gW) ∧
    distLt (vecAt gW.positions 1) (vecAt gW.positions 0) = true ∧
    distLt (vecAt gW.positions 2) (vecAt gW.positions 0) = false ∧
    (selPositions (updateVertexDrag ⟨1, 2, 3⟩ (startVertexDrag 0 ⟨9, 9, 9⟩ wDragState)))[1]? =
      some ⟨1, 2, 3⟩ ∧
    (selPositions (updateVertexDrag ⟨1, 2, 3⟩ (startVertexDrag 0 ⟨9, 9, 9⟩ wDragState)))[2]? =
      gW.positions[2]? :=
  ⟨rfl, by simp [gW, vecAt, distLt, Vec3.distSq],
   by simp [gW, vecAt, distLt, Vec3.distSq]; norm_num,
   (vertexDrag_moves_coincident wDragState gW 0 1 ⟨9, 9, 9⟩ ⟨1, 2, 3⟩ rfl (by decide)
      (by decide)).1 (by simp [gW, vecAt, distLt, Vec3.distSq]),
   (vertexDrag_moves_coincident wDragState gW 0 2 ⟨9, 9, 9⟩ ⟨1, 2, 3⟩ rfl (by decide)
      (by decide)).2 (by simp [gW, vecAt, distLt, Vec3.distSq]; norm_num)⟩

theorem edgeDrag_offsets_connected (s : SceneState) (g : Geometry) (de : DraggedEdge)
    (q : Vec3) (j : Nat)
    (hsel : s.selectedObject = some (.mesh g)) (hde : s.draggedEdge = some de)
    (hnd : de.connectedVertices.Nodup)
    (hlt : ∀ v ∈ de.connectedVertices, v < g.positions.length) :
    (j ∈ de.connectedVertices →
       (selPositions (updateEdgeDrag q s))[j]? =
         some ((vecAt g.positions j).add (q.sub de.midpoint))) ∧
    (j ∉ de.connectedVertices →
       (selPositions (updateEdgeDrag q s))[j]? = g.positions[j]?) ∧
    (updateEdgeDrag q s).draggedEdge = some { de with midpoint := q } := by
  have h1 : selPositions (updateEdgeDrag q s) =
      de.connectedVertices.foldl
        (fun ps v => ps.set v ((vecAt ps v).add (q.sub de.midpoint))) g.positions := by
    unfold updateEdgeDrag selPositions
    rw [hde, hsel]
  have h2 : (updateEdgeDrag q s).draggedEdge = some { de with midpoint := q } := by
    unfold updateEdgeDrag
    rw [hde, hsel]
  refine ⟨?_, ?_, h2⟩
  · intro hmem
    have hjl : j < g.positions.length := hlt j hmem
    rw [h1, foldl_add_getElem? _ _ _ _ hnd hlt]
    simp only [hmem, if_true, List.getElem?_eq_getElem hjl, vecAt_eq hjl]
    rfl
  · intro hmem
    rw [h1, foldl_add_getElem? _ _ _ _ hnd hlt]
    simp [hmem]

theorem edgeDrag_offsets_connected_witness :
    ((0 : Nat) ∈ wSession.connectedVertices ∧
      (selPositions (updateEdgeDrag ⟨2, 0, 0⟩ wEdgeState))[0]? =
        some ((vecAt gW.positions 0).add (Vec3.sub ⟨2, 0, 0⟩ wSession.midpoint))) ∧
    ((2 : Nat) ∉ wSession.connectedVertices ∧
      (selPositions (updateEdgeDrag ⟨2, 0, 0⟩ wEdgeState))[2]? = gW.positions[2]?) ∧
    (updateEdgeDrag ⟨2, 0, 0⟩ wEdgeState).draggedEdge =
      some { wSession with midpoint := ⟨2, 0, 0⟩ } :=
  ⟨⟨by decide,
    (edgeDrag_offsets_connected wEdgeState gW wSession ⟨2, 0, 0⟩ 0 rfl rfl (by decide)
      (by decide)).1 (by decide)⟩,
   ⟨by decide,
    (edgeDrag_offsets_connected wEdgeState gW wSession ⟨2, 0, 0⟩ 2 rfl rfl (by decide)
      (by decide)).2.1 (by decide)⟩,
   (edgeDrag_offsets_connected wEdgeState gW wSession ⟨2, 0, 0⟩ 0 rfl rfl (by decide)
      (by decide)).2.2⟩

theorem isSphereSelected_true {s : SceneState} {g : Geometry} {p : SphereParams}
    (hsel : s.selectedObject = some (.mesh g)) (hk : g.kind = .sphere p) :
    isSphereSelected s = true := by
  obtain ⟨k, pos⟩ := g
  have hk2 : k = .sphere p := hk
  subst hk2
  unfold isSphereSelected
  rw [hsel]

theorem updateSphereVertices_not_floored :
    sphereParamsOf (updateSphereVertices 3 sphState) =
      some { radius := 1, widthSegments := 3, heightSegments := 3 / 2,
             phiStart := 0, phiLength := 44 / 7, thetaStart := 0, thetaLength := 22 / 7 } ∧
    (3 : ℚ) / 2 ≠ ((3 / 2 : ℕ) : ℚ) := by
  constructor
  · rfl
  · norm_num

theorem updateSphereVertices_spec (s : SceneState) (n : ℚ) :
    (∀ g p, s.selectedObject = some (.mesh g) → g.kind = .sphere p →
       updateSphereVertices n s =
         { s with
           selectedObject := some (.mesh (sphereGeometry
             { radius := p.radius, widthSegments := n, heightSegments := n / 2,
               phiStart := p.phiStart, phiLength := p.phiLength,
               thetaStart := p.thetaStart, thetaLength := p.thetaLength }))
           selectedElements := { vertices := [], edges := [], faces := [] } }) ∧
    (isSphereSelected s = false → updateSphereVertices n s = s) := by
  constructor
  · intro g p hsel hk
    obtain ⟨k, pos⟩ := g
    have hk2 : k = .sphere p := hk
    subst hk2
    unfold updateSphereVertices
    rw [hsel]
  · intro h
    unfold updateSphereVertices
    split
    · next g heq =>
      split
      · next oldParams hk =>
        rw [isSphereSelected_true heq hk] at h
        exact Bool.noConfusion h
      · rfl
    · rfl

theorem updateSphereVertices_spec_witness :
    (sphState.selectedObject = some (.mesh (sphereGeometry ⟨1, 16, 8, 0, 44/7, 0, 22/7⟩)) ∧
      updateSphereVertices 10 sphState =
        { sphState with
          selectedObject := some (.mesh (sphereGeometry ⟨1, 10, 10 / 2, 0, 44/7, 0, 22/7⟩))
          selectedElements := { vertices := [], edges := [], faces := [] } }) ∧
    (isSphereSelected initialState = false ∧ updateSphereVertices 10 initialState = initialState) :=
  ⟨⟨rfl, (updateSphereVertices_spec sphState 10).1 (sphereGeometry ⟨1, 16, 8, 0, 44/7, 0, 22/7⟩)
      ⟨1, 16, 8, 0, 44/7, 0, 22/7⟩ rfl rfl⟩,
   ⟨rfl, (updateSphereVertices_spec initialState 10).2 rfl⟩⟩


/-! Projection lemmas: how each group-mutating operation rewrites the two
registries (each is definitional). -/

theorem removeObject_objects (id : String) (s : SceneState) :
    (removeObject id s).objects = s.objects.filter fun o => o.id ≠ id := rfl

theorem removeObject_groups (id : String) (s : SceneState) :
    (removeObject id s).groups =
      s.groups.map fun g => { g with objectIds := g.objectIds.filter fun objId => objId ≠ id } := rfl

theorem removeGroup_objects (gid : String) (s : SceneState) :
    (removeGroup gid s).objects =
      s.objects.map fun o => if o.groupId = some gid then { o with groupId := none } else o := rfl

theorem removeGroup_groups (gid : String) (s : SceneState) :
    (removeGroup gid s).groups = s.groups.filter fun g => g.id ≠ gid := rfl

theorem createGroup_objects (nid nm : String) (ids : List String) (s : SceneState) :
    (createGroup nid nm ids s).objects =
      s.objects.map fun o => if ids.contains o.id then { o with groupId := some nid } else o := rfl

theorem createGroup_groups (nid nm : String) (ids : List String) (s : SceneState) :
    (createGroup nid nm ids s).groups =
      s.groups ++ [{ id := nid, name := nm, expanded := true, visible := true, objectIds := ids }] := rfl

theorem addObjectToGroup_objects (oid gid : String) (s : SceneState) :
    (addObjectToGroup oid gid s).objects =
      s.objects.map fun o => if o.id = oid then { o with groupId := some gid } else o := rfl

theorem addObjectToGroup_groups (oid gid : String) (s : SceneState) :
    (addObjectToGroup oid gid s).groups =
      s.groups.map fun g =>
        if g.id = gid then { g with objectIds := g.objectIds ++ [oid] } else g := rfl

theorem moveObjectsToGroup_objects (ids : List String) (tgt : Option String) (s : SceneState) :
    (moveObjectsToGroup ids tgt s).objects =
      s.objects.map fun o => if ids.contains o.id then { o with groupId := tgt } else o := by
  cases tgt <;> rfl

theorem moveObjectsToGroup_groups_none (ids : List String) (s : SceneState) :
    (moveObjectsToGroup ids none s).groups =
      s.groups.map fun g =>
        { g with objectIds := g.objectIds.filter fun i => !ids.contains i } := rfl

theorem moveObjectsToGroup_groups_some (ids : List String) (t : String) (s : SceneState) :
    (moveObjectsToGroup ids (some t) s).groups =
      s.groups.map fun g =>
        if g.id = t
        then { g with objectIds := (g.objectIds.filter fun i => !ids.contains i) ++ ids }
        else { g with objectIds := g.objectIds.filter fun i => !ids.contains i } := by
  show (s.groups.map _).map _ = _
  rw [List.map_map]
  rfl

/-! Preservation of referential integrity, operation by operation. -/

/-- Preservation: `removeObject` preserves referential integrity: it strips the removed id
from every member list while deleting the object. -/
theorem removeObject_refIntegrity (s : SceneState) (hinv : refIntegrity s) (id : String) :
    refIntegrity (removeObject id s) := by
  obtain ⟨h1, h2⟩ := hinv
  constructor
  · intro g hg oid hoid
    rw [removeObject_groups] at hg
    rw [removeObject_objects]
    simp only [List.mem_map] at hg
    obtain ⟨g0, hg0, rfl⟩ := hg
    simp only [List.mem_filter, decide_eq_true_eq] at hoid
    obtain ⟨hoid0, hne⟩ := hoid
    obtain ⟨o, ho, hoi, hog⟩ := h1 g0 hg0 oid hoid0
    exact ⟨o, List.mem_filter.mpr ⟨ho, by simp [hoi, hne]⟩, hoi, hog⟩
  · intro o ho g hg hog
    rw [removeObject_objects] at ho
    rw [removeObject_groups] at hg
    simp only [List.mem_filter, decide_eq_true_eq] at ho
    simp only [List.mem_map] at hg
    obtain ⟨g0, hg0, rfl⟩ := hg
    simp only [List.mem_filter, decide_eq_true_eq]
    exact ⟨h2 o ho.1 g0 hg0 hog, ho.2⟩

/-- Preservation: `removeGroup` preserves referential integrity: it resets the group id of
every member while deleting the group. -/
theorem removeGroup_refIntegrity (s : SceneState) (hinv : refIntegrity s) (gid : String) :
    refIntegrity (removeGroup gid s) := by
  obtain ⟨h1, h2⟩ := hinv
  constructor
  · intro g hg oid hoid
    rw [removeGroup_groups] at hg
    rw [removeGroup_objects]
    simp only [List.mem_filter, decide_eq_true_eq] at hg
    obtain ⟨hg0, hgne⟩ := hg
    obtain ⟨o, ho, hoi, hog⟩ := h1 g hg0 oid hoid
    have hogne : ¬ o.groupId = some gid := by simp [hog, hgne]
    refine ⟨o, ?_, hoi, hog⟩
    simp only [List.mem_map]
    exact ⟨o, ho, by simp [hogne]⟩
  · intro o ho g hg hog
    rw [removeGroup_objects] at ho
    rw [removeGroup_groups] at hg
    simp only [List.mem_map] at ho
    obtain ⟨o0, ho0, rfl⟩ := ho
    simp only [List.mem_filter, decide_eq_true_eq] at hg
    by_cases hc : o0.groupId = some gid
    · rw [if_pos hc] at hog
      exact absurd hog (by simp)
    · rw [if_neg hc] at hog ⊢
      exact h2 o0 ho0 g hg.1 hog

/-- Preservation: `createGroup` preserves referential integrity provided the generated group
id is fresh and every given id names an existing, currently ungrouped object
(object ids assumed distinct, as UUIDs are). -/
theorem createGroup_refIntegrity (s : SceneState)
    (hnd : (s.objects.map fun o => o.id).Nodup)
    (hinv : refIntegrity s) (nid nm : String) (ids : List String)
    (hfreshg : ∀ g ∈ s.groups, g.id ≠ nid)
    (hfresho : ∀ o ∈ s.objects, o.groupId ≠ some nid)
    (hids : ∀ i ∈ ids, ∃ o ∈ s.objects, o.id = i ∧ o.groupId = none) :
    refIntegrity (createGroup nid nm ids s) := by
  obtain ⟨h1, h2⟩ := hinv
  have hinj := List.inj_on_of_nodup_map hnd
  constructor
  · intro g hg oid hoid
    rw [createGroup_groups, List.mem_append, List.mem_singleton] at hg
    rw [createGroup_objects]
    rcases hg with hg | rfl
    · obtain ⟨o, ho, hoi, hog⟩ := h1 g hg oid hoid
      have hoc : ids.contains o.id = false := by
        by_contra hc
        have hmem : o.id ∈ ids := by
          cases h : ids.contains o.id
          · exact absurd h hc
          · simpa using h
        obtain ⟨o2, ho2, hoi2, hog2⟩ := hids o.id hmem
        have he : o2 = o := hinj ho2 ho hoi2
        rw [he] at hog2
        rw [hog2] at hog
        exact Option.noConfusion hog
      refine ⟨o, ?_, hoi, hog⟩
      simp only [List.mem_map]
      refine ⟨o, ho, ?_⟩
      rw [hoc]
      simp
    · obtain ⟨o, ho, hoi, hog⟩ := hids oid hoid
      refine ⟨{ o with groupId := some nid }, ?_, hoi, rfl⟩
      simp only [List.mem_map]
      refine ⟨o, ho, ?_⟩
      have hoc : ids.contains o.id = true := by rw [hoi]; simpa using hoid
      rw [hoc]
      simp
  · intro o ho g hg hog
    rw [createGroup_objects] at ho
    rw [createGroup_groups, List.mem_append, List.mem_singleton] at hg
    simp only [List.mem_map] at ho
    obtain ⟨o0, ho0, rfl⟩ := ho
    cases hco : ids.contains o0.id with
    | true =>
      rw [hco] at hog
      rw [if_pos rfl] at hog ⊢
      rcases hg with hgold | rfl
      · have hog2 : some nid = some g.id := hog
        have hgid : g.id = nid := by injection hog2 with h; exact h.symm
        exact absurd hgid (hfreshg g hgold)
      · show o0.id ∈ ids
        simpa using hco
    | false =>
      rw [hco] at hog
      rw [if_neg (show ¬(false = true) by simp)] at hog ⊢
      rcases hg with hgold | rfl
      · exact h2 o0 ho0 g hgold hog
      · exact absurd hog (hfresho o0 ho0)

/-- Preservation: `addObjectToGroup` preserves referential integrity provided the object
exists and is currently ungrouped. -/
theorem addObjectToGroup_refIntegrity (s : SceneState)
    (hnd : (s.objects.map fun o => o.id).Nodup)
    (hinv : refIntegrity s) (oid gid : String)
    (hobj : ∃ o ∈ s.objects, o.id = oid ∧ o.groupId = none)
    (_hgrp : ∃ g ∈ s.groups, g.id = gid) :
    refIntegrity (addObjectToGroup oid gid s) := by
  obtain ⟨h1, h2⟩ := hinv
  have hinj := List.inj_on_of_nodup_map hnd
  obtain ⟨oz, hoz, hozid, hozg⟩ := hobj
  constructor
  · intro g hg oid2 hoid2
    rw [addObjectToGroup_groups] at hg
    rw [addObjectToGroup_objects]
    simp only [List.mem_map] at hg
    obtain ⟨g0, hg0, rfl⟩ := hg
    by_cases hgt : g0.id = gid
    · rw [if_pos hgt] at hoid2 ⊢
      rw [List.mem_append, List.mem_singleton] at hoid2
      rcases hoid2 with hold | rfl
      · obtain ⟨o, ho, hoi, hog⟩ := h1 g0 hg0 oid2 hold
        have hone : ¬ o.id = oid := by
          intro hc
          have he : o = oz := hinj ho hoz (hc.trans hozid.symm)
          rw [he, hozg] at hog
          exact Option.noConfusion hog
        refine ⟨o, ?_, hoi, hog⟩
        simp only [List.mem_map]
        exact ⟨o, ho, by rw [if_neg hone]⟩
      · refine ⟨{ oz with groupId := some gid }, ?_, hozid, by rw [hgt]⟩
        simp only [List.mem_map]
        exact ⟨oz, hoz, by rw [if_pos hozid]⟩
    · rw [if_neg hgt] at hoid2 ⊢
      obtain ⟨o, ho, hoi, hog⟩ := h1 g0 hg0 oid2 hoid2
      have hone : ¬ o.id = oid := by
        intro hc
        have he : o = oz := hinj ho hoz (hc.trans hozid.symm)
        rw [he, hozg] at hog
        exact Option.noConfusion hog
      refine ⟨o, ?_, hoi, hog⟩
      simp only [List.mem_map]
      exact ⟨o, ho, by rw [if_neg hone]⟩
  · intro o ho g hg hog
    rw [addObjectToGroup_objects] at ho
    rw [addObjectToGroup_groups] at hg
    simp only [List.mem_map] at ho hg
    obtain ⟨o0, ho0, rfl⟩ := ho
    obtain ⟨g0, hg0, rfl⟩ := hg
    by_cases hoid : o0.id = oid
    · rw [if_pos hoid] at hog ⊢
      by_cases hgt : g0.id = gid
      · rw [if_pos hgt] at hog ⊢
        rw [List.mem_append, List.mem_singleton]
        exact Or.inr hoid
      · rw [if_neg hgt] at hog
        have hog2 : some gid = some g0.id := hog
        have h3 : g0.id = gid := by injection hog2 with h; exact h.symm
        exact absurd h3 hgt
    · rw [if_neg hoid] at hog ⊢
      by_cases hgt : g0.id = gid
      · rw [if_pos hgt] at hog ⊢
        exact List.mem_append_left _ (h2 o0 ho0 g0 hg0 hog)
      · rw [if_neg hgt] at hog ⊢
        exact h2 o0 ho0 g0 hg0 hog

/-- Preservation: `removeObjectFromGroup` preserves referential integrity (object ids
assumed distinct, as UUIDs are). -/
theorem removeObjectFromGroup_refIntegrity (s : SceneState)
    (hnd : (s.objects.map fun o => o.id).Nodup)
    (hinv : refIntegrity s) (oid : String) :
    refIntegrity (removeObjectFromGroup oid s) := by
  obtain ⟨h1, h2⟩ := hinv
  have hinj := List.inj_on_of_nodup_map hnd
  unfold removeObjectFromGroup
  split
  · exact ⟨h1, h2⟩
  · next obj hfind =>
    split
    · exact ⟨h1, h2⟩
    · next gid hgid =>
      have hobjmem : obj ∈ s.objects := List.mem_of_find?_eq_some hfind
      have hobjid : obj.id = oid := by
        have hp := List.find?_some hfind
        simpa using hp
      constructor
      · intro g hg oid2 hoid2
        simp only [List.mem_map] at hg
        obtain ⟨g0, hg0, rfl⟩ := hg
        by_cases hgt : g0.id = gid
        · rw [if_pos hgt] at hoid2 ⊢
          simp only [List.mem_filter, decide_eq_true_eq] at hoid2
          obtain ⟨hoid0, hne⟩ := hoid2
          obtain ⟨o, ho, hoi, hog⟩ := h1 g0 hg0 oid2 hoid0
          have hone : ¬ o.id = oid := by rw [hoi]; exact hne
          refine ⟨o, ?_, hoi, hog⟩
          simp only [List.mem_map]
          exact ⟨o, ho, by rw [if_neg hone]⟩
        · rw [if_neg hgt] at hoid2 ⊢
          obtain ⟨o, ho, hoi, hog⟩ := h1 g0 hg0 oid2 hoid2
          have hone : ¬ o.id = oid := by
            intro hc
            have he : o = obj := hinj ho hobjmem (hc.trans hobjid.symm)
            rw [he, hgid] at hog
            have hog2 : some gid = some g0.id := hog
            have h3 : g0.id = gid := by injection hog2 with h; exact h.symm
            exact hgt h3
          refine ⟨o, ?_, hoi, hog⟩
          simp only [List.mem_map]
          exact ⟨o, ho, by rw [if_neg hone]⟩
      · intro o ho g hg hog
        simp only [List.mem_map] at ho hg
        obtain ⟨o0, ho0, rfl⟩ := ho
        obtain ⟨g0, hg0, rfl⟩ := hg
        by_cases hoid2 : o0.id = oid
        · rw [if_pos hoid2] at hog
          exact absurd hog (by simp)
        · rw [if_neg hoid2] at hog ⊢
          by_cases hgt : g0.id = gid
          · rw [if_pos hgt] at hog ⊢
            simp only [List.mem_filter, decide_eq_true_eq]
            exact ⟨h2 o0 ho0 g0 hg0 hog, hoid2⟩
          · rw [if_neg hgt] at hog ⊢
            exact h2 o0 ho0 g0 hg0 hog

/-- Preservation: `moveObjectsToGroup` preserves referential integrity provided every moved
id names an existing object and the target group, when given, exists. -/
theorem moveObjectsToGroup_refIntegrity (s : SceneState) (hinv : refIntegrity s)
    (ids : List String) (tgt : Option String)
    (hex : ∀ i ∈ ids, ∃ o ∈ s.objects, o.id = i)
    (htgt : ∀ t, tgt = some t → ∃ g ∈ s.groups, g.id = t) :
    refIntegrity (moveObjectsToGroup ids tgt s) := by
  obtain ⟨h1, h2⟩ := hinv
  cases tgt with
  | none =>
    constructor
    · intro g hg oid hoid
      rw [moveObjectsToGroup_groups_none] at hg
      rw [moveObjectsToGroup_objects]
      simp only [List.mem_map] at hg
      obtain ⟨g0, hg0, rfl⟩ := hg
      simp only [List.mem_filter] at hoid
      obtain ⟨hoid0, hnotin⟩ := hoid
      obtain ⟨o, ho, hoi, hog⟩ := h1 g0 hg0 oid hoid0
      have hoc : ids.contains o.id = false := by
        rw [hoi]
        cases h : ids.contains oid
        · rfl
        · rw [h] at hnotin; simp at hnotin
      refine ⟨o, ?_, hoi, hog⟩
      simp only [List.mem_map]
      refine ⟨o, ho, ?_⟩
      rw [hoc]
      simp
    · intro o ho g hg hog
      rw [moveObjectsToGroup_objects] at ho
      rw [moveObjectsToGroup_groups_none] at hg
      simp only [List.mem_map] at ho hg
      obtain ⟨o0, ho0, rfl⟩ := ho
      obtain ⟨g0, hg0, rfl⟩ := hg
      cases hco : ids.contains o0.id with
      | true =>
        rw [hco] at hog
        rw [if_pos rfl] at hog
        exact absurd hog (by simp)
      | false =>
        rw [hco] at hog
        rw [if_neg (show ¬(false = true) by simp)] at hog ⊢
        simp only [List.mem_filter]
        refine ⟨h2 o0 ho0 g0 hg0 hog, ?_⟩
        rw [hco]
        rfl
  | some t =>
    constructor
    · intro g hg oid hoid
      rw [moveObjectsToGroup_groups_some] at hg
      rw [moveObjectsToGroup_objects]
      simp only [List.mem_map] at hg
      obtain ⟨g0, hg0, rfl⟩ := hg
      by_cases hgt : g0.id = t
      · rw [if_pos hgt] at hoid ⊢
        rw [List.mem_append] at hoid
        rcases hoid with hold | hnew
        · simp only [List.mem_filter] at hold
          obtain ⟨hoid0, hnotin⟩ := hold
          obtain ⟨o, ho, hoi, hog⟩ := h1 g0 hg0 oid hoid0
          have hoc : ids.contains o.id = false := by
            rw [hoi]
            cases h : ids.contains oid
            · rfl
            · rw [h] at hnotin; simp at hnotin
          refine ⟨o, ?_, hoi, hog⟩
          simp only [List.mem_map]
          refine ⟨o, ho, ?_⟩
          rw [hoc]
          simp
        · obtain ⟨o, ho, hoi⟩ := hex oid hnew
          have hoc : ids.contains o.id = true := by rw [hoi]; simpa using hnew
          refine ⟨{ o with groupId := some t }, ?_, hoi, by rw [hgt]⟩
          simp only [List.mem_map]
          refine ⟨o, ho, ?_⟩
          rw [hoc]
          simp
      · rw [if_neg hgt] at hoid ⊢
        simp only [List.mem_filter] at hoid
        obtain ⟨hoid0, hnotin⟩ := hoid
        obtain ⟨o, ho, hoi, hog⟩ := h1 g0 hg0 oid hoid0
        have hoc : ids.contains o.id = false := by
          rw [hoi]
          cases h : ids.contains oid
          · rfl
          · rw [h] at hnotin; simp at hnotin
        refine ⟨o, ?_, hoi, hog⟩
        simp only [List.mem_map]
        refine ⟨o, ho, ?_⟩
        rw [hoc]
        simp
    · intro o ho g hg hog
      rw [moveObjectsToGroup_objects] at ho
      rw [moveObjectsToGroup_groups_some] at hg
      simp only [List.mem_map] at ho hg
      obtain ⟨o0, ho0, rfl⟩ := ho
      obtain ⟨g0, hg0, rfl⟩ := hg
      cases hco : ids.contains o0.id with
      | true =>
        rw [hco] at hog
        rw [if_pos rfl] at hog ⊢
        by_cases hgt : g0.id = t
        · rw [if_pos hgt] at hog ⊢
          refine List.mem_append_right _ ?_
          show o0.id ∈ ids
          simpa using hco
        · rw [if_neg hgt] at hog
          have hog2 : some t = some g0.id := hog
          have h3 : g0.id = t := by injection hog2 with h; exact h.symm
          exact absurd h3 hgt
      | false =>
        rw [hco] at hog
        rw [if_neg (show ¬(false = true) by simp)] at hog ⊢
        by_cases hgt : g0.id = t
        · rw [if_pos hgt] at hog ⊢
          refine List.mem_append_left _ ?_
          simp only [List.mem_filter]
          refine ⟨h2 o0 ho0 g0 hg0 hog, ?_⟩
          rw [hco]
          rfl
        · rw [if_neg hgt] at hog ⊢
          simp only [List.mem_filter]
          refine ⟨h2 o0 ho0 g0 hg0 hog, ?_⟩
          rw [hco]
          rfl

/-- Counterexample to C1 as stated: from a state satisfying the invariant
(one object `a` in group `g1`), `createGroup` on `a` rewrites its group id to
the new group but leaves `a` listed by `g1`, breaking referential integrity:
the object is not moved but ends up listed by both groups. -/
theorem createGroup_breaks_refIntegrity :
    refIntegrity cgState ∧
    ¬ refIntegrity (createGroup "g2" "G2" ["a"] cgState) ∧
    (createGroup "g2" "G2" ["a"] cgState).groups.map Group.objectIds = [["a"], ["a"]] ∧
    (createGroup "g2" "G2" ["a"] cgState).objects.map SceneObjectEntry.groupId = [some "g2"] :=
  ⟨by decide, by decide, by decide, by decide⟩

/-- Claim C1 as amended: with distinct object ids, referential integrity is
preserved by `removeObject`, `removeGroup` and `removeObjectFromGroup` for all
arguments, and by `createGroup` (fresh group id, every given id an existing
ungrouped object), `addObjectToGroup` (existing ungrouped object, existing
target group) and `moveObjectsToGroup` (existing objects, existing target)
under those validity preconditions; `createGroup` never edits pre-existing
groups, so an object already in another group is not removed from it (it is
listed by both groups, contrary to the original claim). -/
theorem groupOps_preserve_refIntegrity (s : SceneState)
    (hnd : objectIdsNodup s) (hinv : refIntegrity s) :
    (∀ id, refIntegrity (removeObject id s)) ∧
    (∀ gid, refIntegrity (removeGroup gid s)) ∧
    (∀ oid, refIntegrity (removeObjectFromGroup oid s)) ∧
    (∀ nid nm ids, (∀ g ∈ s.groups, g.id ≠ nid) → (∀ o ∈ s.objects, o.groupId ≠ some nid) →
      (∀ i ∈ ids, ∃ o ∈ s.objects, o.id = i ∧ o.groupId = none) →
      refIntegrity (createGroup nid nm ids s)) ∧
    (∀ oid gid, (∃ o ∈ s.objects, o.id = oid ∧ o.groupId = none) →
      (∃ g ∈ s.groups, g.id = gid) → refIntegrity (addObjectToGroup oid gid s)) ∧
    (∀ ids tgt, (∀ i ∈ ids, ∃ o ∈ s.objects, o.id = i) →
      (∀ t, tgt = some t → ∃ g ∈ s.groups, g.id = t) →
      refIntegrity (moveObjectsToGroup ids tgt s)) ∧
    (∀ nid nm ids, ∀ g ∈ s.groups, g ∈ (createGroup nid nm ids s).groups) :=
  ⟨fun id => removeObject_refIntegrity s hinv id,
   fun gid => removeGroup_refIntegrity s hinv gid,
   fun oid => removeObjectFromGroup_refIntegrity s hnd hinv oid,
   fun nid nm ids hf1 hf2 hf3 => createGroup_refIntegrity s hnd hinv nid nm ids hf1 hf2 hf3,
   fun oid gid hb1 hb2 => addObjectToGroup_refIntegrity s hnd hinv oid gid hb1 hb2,
   fun ids tgt hm1 hm2 => moveObjectsToGroup_refIntegrity s hinv ids tgt hm1 hm2,
   fun nid nm ids g hg => by rw [createGroup_groups]; exact List.mem_append_left _ hg⟩

/-- Witness for the amended C1 on a concrete two-object registry. -/
theorem groupOps_preserve_refIntegrity_witness :
    objectIdsNodup wState ∧ refIntegrity wState ∧
    refIntegrity (removeObject "b" wState) ∧
    refIntegrity (removeGroup "g1" wState) ∧
    refIntegrity (removeObjectFromGroup "b" wState) ∧
    refIntegrity (createGroup "g2" "G2" ["a"] wState) ∧
    refIntegrity (addObjectToGroup "a" "g1" wState) ∧
    refIntegrity (moveObjectsToGroup ["b"] (some "g1") wState) ∧
    ({ id := "g1", name := "G1", expanded := true, visible := true, objectIds := ["b"] } : Group) ∈
      (createGroup "g2" "G2" ["a"] wState).groups :=
  ⟨by decide, by decide,
   (groupOps_preserve_refIntegrity wState (by decide) (by decide)).1 "b",
   (groupOps_preserve_refIntegrity wState (by decide) (by decide)).2.1 "g1",
   (groupOps_preserve_refIntegrity wState (by decide) (by decide)).2.2.1 "b",
   (groupOps_preserve_refIntegrity wState (by decide) (by decide)).2.2.2.1 "g2" "G2" ["a"]
     (by decide) (by decide) (by decide),
   (groupOps_preserve_refIntegrity wState (by decide) (by decide)).2.2.2.2.1 "a" "g1"
     (by decide) (by decide),
   (groupOps_preserve_refIntegrity wState (by decide) (by decide)).2.2.2.2.2.1 ["b"] (some "g1")
     (by decide) (fun t ht => by injection ht with h; subst h; decide),
   (groupOps_preserve_refIntegrity wState (by decide) (by decide)).2.2.2.2.2.2 "g2" "G2" ["a"]
     { id := "g1", name := "G1", expanded := true, visible := true, objectIds := ["b"] }
     (by decide)⟩

/-- Claim C10: `createGroup` stores the given ids verbatim in the new group
(no validation), appends the group leaving all pre-existing groups unchanged,
rewrites the group id of exactly the objects whose id occurs among the given
ids, and neither adds nor removes objects. -/
theorem createGroup_verbatim (s : SceneState) (nid nm : String) (ids : List String) :
    (createGroup nid nm ids s).groups =
      s.groups ++ [{ id := nid, name := nm, expanded := true, visible := true, objectIds := ids }] ∧
    (∀ o ∈ s.objects, ids.contains o.id = true →
       { o with groupId := some nid } ∈ (createGroup nid nm ids s).objects) ∧
    (∀ o ∈ s.objects, ids.contains o.id = false → o ∈ (createGroup nid nm ids s).objects) ∧
    (createGroup nid nm ids s).objects.length = s.objects.length := by
  refine ⟨rfl, ?_, ?_, ?_⟩
  · intro o ho hc
    rw [createGroup_objects]
    simp only [List.mem_map]
    refine ⟨o, ho, ?_⟩
    rw [hc]
    simp
  · intro o ho hc
    rw [createGroup_objects]
    simp only [List.mem_map]
    refine ⟨o, ho, ?_⟩
    rw [hc]
    simp
  · rw [createGroup_objects]
    exact List.length_map _ _

/-- Witness for C10, including an id (`zzz`) matching no object. -/
theorem createGroup_verbatim_witness :
    (({ id := "a", object := .plain, name := "A", visible := true,
        groupId := none } : SceneObjectEntry) ∈ wState.objects ∧
      (["a", "zzz"].contains "a") = true ∧
      ({ id := "a", object := .plain, name := "A", visible := true,
         groupId := some "g2" } : SceneObjectEntry) ∈
        (createGroup "g2" "G2" ["a", "zzz"] wState).objects) ∧
    (({ id := "b", object := .plain, name := "B", visible := true,
        groupId := some "g1" } : SceneObjectEntry) ∈ wState.objects ∧
      (["a", "zzz"].contains "b") = false ∧
      ({ id := "b", object := .plain, name := "B", visible := true,
         groupId := some "g1" } : SceneObjectEntry) ∈
        (createGroup "g2" "G2" ["a", "zzz"] wState).objects) ∧
    (createGroup "g2" "G2" ["a", "zzz"] wState).groups =
      wState.groups ++ [{ id := "g2", name := "G2", expanded := true, visible := true,
                          objectIds := ["a", "zzz"] }] :=
  ⟨⟨by decide, by decide,
    (createGroup_verbatim wState "g2" "G2" ["a", "zzz"]).2.1
      { id := "a", object := .plain, name := "A", visible := true, groupId := none }
      (by decide) (by decide)⟩,
   ⟨by decide, by decide,
    (createGroup_verbatim wState "g2" "G2" ["a", "zzz"]).2.2.1
      { id := "b", object := .plain, name := "B", visible := true, groupId := some "g1" }
      (by decide) (by decide)⟩,
   (createGroup_verbatim wState "g2" "G2" ["a", "zzz"]).1⟩

end SceneStore
